import Mathlib

/-!
Verification of the valian firebase-functions utility packages.

The development shallowly embeds the three packages of the repository:
the pino logger adapter (packages/pino-logger/src/logger.ts), the leveled
logger facade (the tslog-based logger module), and the Sentry wrapper layer
(packages/sentry/src/sentry-wrapper.ts, handle-not-awaited-promise.ts and
the init-sentry module).  Machine numbers that flow through JSON are
modelled as rationals; the process environment is modelled as explicit
optional string fields.
-/

namespace FirebaseFunctions

/-- GCP LogSeverity, from the `LogSeverity` union type in
packages/pino-logger/src/logger.ts. -/
inductive LogSeverity where
  | DEBUG
  | INFO
  | NOTICE
  | WARNING
  | ERROR
  | CRITICAL
  | ALERT
  | EMERGENCY
deriving DecidableEq, Repr

/-- Numeric rank of the five severities produced by the pino adapter,
in the increasing order DEBUG < INFO < WARNING < ERROR < CRITICAL. -/
def severityRank : LogSeverity → Nat
  | .DEBUG => 0
  | .INFO => 1
  | .NOTICE => 2
  | .WARNING => 3
  | .ERROR => 4
  | .CRITICAL => 5
  | .ALERT => 6
  | .EMERGENCY => 7

/-- Embedding of `pinoLevelToSeverity` from
packages/pino-logger/src/logger.ts: cascaded `level < bound` tests. -/
def pinoLevelToSeverity (level : ℚ) : LogSeverity :=
  if level < 30 then .DEBUG
  else if level < 40 then .INFO
  else if level < 50 then .WARNING
  else if level < 60 then .ERROR
  else .CRITICAL

mutual

/-- JSON values, as produced by the platform JSON parser.  Numbers are
modelled as unnormalized decimals, a mantissa and a power-of-ten exponent
(every numeric literal a JSON text can denote is a terminating decimal);
all arithmetic on them is integer arithmetic. -/
inductive JsonValue where
  | null
  | bool (b : Bool)
  | num (mantissa exp10 : Int)
  | str (s : String)
  | arr (xs : JsonArray)
  | obj (fs : JsonObject)

inductive JsonArray where
  | nil
  | cons (hd : JsonValue) (tl : JsonArray)

inductive JsonObject where
  | nil
  | cons (key : String) (val : JsonValue) (tl : JsonObject)

end

/-- The opening-brace character, written by code point. -/
def charLBrace : Char := Char.ofNat 123

/-- The closing-brace character, written by code point. -/
def charRBrace : Char := Char.ofNat 125

/-- Lower-case hexadecimal digit for a value below 16. -/
def hexDigitChar (n : Nat) : Char :=
  (List.getD "0123456789abcdef".toList n '0')

/-- Escaping of a single character inside a JSON string literal, as the
platform stringifier performs it. -/
def jsonEscapeChar (c : Char) : String :=
  if c = '"' then "\\\""
  else if c = '\\' then "\\\\"
  else if c = '\n' then "\\n"
  else if c = '\r' then "\\r"
  else if c = '\t' then "\\t"
  else if c.toNat = 8 then "\\b"
  else if c.toNat = 12 then "\\f"
  else if c.toNat < 32 then
    String.mk ['\\', 'u', '0', '0', hexDigitChar (c.toNat / 16), hexDigitChar (c.toNat % 16)]
  else String.singleton c

/-- A JSON string literal: quoted and escaped. -/
def jsonQuote (s : String) : String :=
  "\"" ++ String.join (s.toList.map jsonEscapeChar) ++ "\""

/-- The rational value of a decimal given by mantissa and exponent. -/
def decToRat (m e : Int) : ℚ :=
  if 0 ≤ e then ((m * 10 ^ e.toNat : Int) : ℚ) else (m : ℚ) / ((10 : ℚ) ^ (-e).toNat)

/-- Whether the decimal m times ten to the e is strictly below a natural
bound, computed with integer arithmetic only. -/
def decLtNat (m e : Int) (bound : Nat) : Bool :=
  if 0 ≤ e then m * 10 ^ e.toNat < (bound : Int) else m < (bound : Int) * 10 ^ (-e).toNat

/-- Move trailing zero factors of the mantissa into the exponent. -/
def stripTrailingZeros (m e : Int) : Nat → Int × Int
  | 0 => (m, e)
  | fuel + 1 =>
      if m ≠ 0 ∧ m % 10 = 0 then stripTrailingZeros (m / 10) (e + 1) fuel else (m, e)

/-- Decimal rendering of a mantissa-exponent number, mirroring how the
platform prints the numbers that occur in JSON texts. -/
def decToJsString (m e : Int) : String :=
  if m = 0 then "0"
  else
    let me := stripTrailingZeros m e 40
    let m := me.1
    let e := me.2
    if 0 ≤ e then toString (m * 10 ^ e.toNat)
    else
      let k := (-e).toNat
      let ds := toString m.natAbs
      let ds := String.mk (List.replicate (k + 1 - ds.length) '0') ++ ds
      let intPart := ds.toList.take (ds.length - k)
      let fracPart := ds.toList.drop (ds.length - k)
      (if m < 0 then "-" else "") ++ String.mk intPart ++ "." ++ String.mk fracPart

mutual

/-- JSON stringification with an indentation gap, mirroring the platform
stringifier called with a two-space (or any) gap: `stringifyValue` renders
one value at the given surrounding indentation. -/
def stringifyValue (indent : String) : JsonValue → String
  | .null => "null"
  | .bool b => if b then "true" else "false"
  | .num m e => decToJsString m e
  | .str s => jsonQuote s
  | .arr .nil => "[]"
  | .arr (.cons v tl) =>
      "[\n" ++ stringifyItems (indent ++ "  ") (.cons v tl) ++ "\n" ++ indent ++ "]"
  | .obj .nil => "\x7b\x7d"
  | .obj (.cons k v tl) =>
      "\x7b\n" ++ stringifyMembers (indent ++ "  ") (.cons k v tl) ++ "\n" ++ indent ++ "\x7d"

def stringifyItems (indent : String) : JsonArray → String
  | .nil => ""
  | .cons v .nil => indent ++ stringifyValue indent v
  | .cons v (.cons w tl) =>
      indent ++ stringifyValue indent v ++ ",\n" ++ stringifyItems indent (.cons w tl)

def stringifyMembers (indent : String) : JsonObject → String
  | .nil => ""
  | .cons k v .nil => indent ++ jsonQuote k ++ ": " ++ stringifyValue indent v
  | .cons k v (.cons k2 v2 tl) =>
      indent ++ jsonQuote k ++ ": " ++ stringifyValue indent v ++ ",\n" ++
        stringifyMembers indent (.cons k2 v2 tl)

end

/-- `JSON.stringify(value, null, 2)`: top-level stringification with a
two-space gap, as used by the v1 document-change wrapper. -/
def jsonStringify2 (v : JsonValue) : String := stringifyValue "" v

/-- JSON whitespace test. -/
def isJsonWs (c : Char) : Bool := c = ' ' || c = '\t' || c = '\n' || c = '\r'

/-- Drop leading JSON whitespace. -/
def skipWs : List Char → List Char
  | [] => []
  | c :: cs => if isJsonWs c then skipWs cs else c :: cs

/-- ECMAScript whitespace, the characters the numeric string coercion
trims: tab through carriage return, space, no-break space, the Unicode
space separators, the line and paragraph separators, and the byte-order
mark. -/
def isJsWhitespace (c : Char) : Bool :=
  let n := c.toNat
  decide ((9 ≤ n ∧ n ≤ 13) ∨ n = 32 ∨ n = 160 ∨ n = 5760 ∨ (8192 ≤ n ∧ n ≤ 8202) ∨
    n = 8232 ∨ n = 8233 ∨ n = 8239 ∨ n = 8287 ∨ n = 12288 ∨ n = 65279)

/-- Drop leading ECMAScript whitespace. -/
def skipWsJs : List Char → List Char
  | [] => []
  | c :: cs => if isJsWhitespace c then skipWsJs cs else c :: cs

/-- Trim ECMAScript whitespace on both ends. -/
def trimWsJs (cs : List Char) : List Char :=
  ((skipWsJs ((skipWsJs cs).reverse)).reverse)

/-- Split a longest prefix of decimal digits. -/
def takeDigits : List Char → (List Char × List Char)
  | [] => ([], [])
  | c :: cs =>
      if c.isDigit then
        let (ds, rest) := takeDigits cs
        (c :: ds, rest)
      else ([], c :: cs)

/-- Numeric value of a digit list. -/
def digitsToNat (ds : List Char) : Nat :=
  ds.foldl (fun acc c => acc * 10 + (c.toNat - 48)) 0

/-- Value of a hexadecimal digit. -/
def hexVal (c : Char) : Option Nat :=
  if c.isDigit then some (c.toNat - 48)
  else if 'a' ≤ c ∧ c ≤ 'f' then some (c.toNat - 87)
  else if 'A' ≤ c ∧ c ≤ 'F' then some (c.toNat - 55)
  else none

/-- Optional fraction part of a JSON number: its digit list. -/
def parseFrac : List Char → Option (List Char × List Char)
  | '.' :: rest =>
      match takeDigits rest with
      | ([], _) => none
      | (ds, rest2) => some (ds, rest2)
  | cs => some ([], cs)

/-- Optional exponent part of a numeric literal. -/
def parseExp : List Char → Option (ℤ × List Char)
  | [] => some (0, [])
  | c :: rest =>
      if c = 'e' ∨ c = 'E' then
        let (sgn, rest1) : ℤ × List Char :=
          match rest with
          | '+' :: r => (1, r)
          | '-' :: r => (-1, r)
          | r => (1, r)
        match takeDigits rest1 with
        | ([], _) => none
        | (ds, rest2) => some (sgn * (digitsToNat ds : ℤ), rest2)
      else some (0, c :: rest)

/-- A JSON numeric literal: optional minus, integer part without leading
zeros, optional fraction, optional exponent. -/
def parseNumber (cs : List Char) : Option ((Int × Int) × List Char) :=
  let (neg, cs1) : Bool × List Char :=
    match cs with
    | '-' :: rest => (true, rest)
    | _ => (false, cs)
  match takeDigits cs1 with
  | ([], _) => none
  | (ds, rest) =>
      if 1 < ds.length ∧ ds.headD '0' = '0' then none
      else do
        let (fds, rest2) ← parseFrac rest
        let (e, rest3) ← parseExp rest2
        let mant : Int := (digitsToNat (ds ++ fds) : Int)
        let mant : Int := if neg then -mant else mant
        some ((mant, e - (fds.length : Int)), rest3)

/-- Body of a JSON string literal after the opening quote; the fuel bounds
the number of remaining characters. -/
def parseStringBody (fuel : Nat) (cs : List Char) : Option (String × List Char) :=
  match fuel with
  | 0 => none
  | fuel + 1 =>
    match cs with
    | [] => none
    | '\\' :: e :: rest =>
        let step (c : Char) (rest2 : List Char) : Option (String × List Char) := do
          let (s, r) ← parseStringBody fuel rest2
          some (String.singleton c ++ s, r)
        if e = '"' then step '"' rest
        else if e = '\\' then step '\\' rest
        else if e = '/' then step '/' rest
        else if e = 'b' then step (Char.ofNat 8) rest
        else if e = 'f' then step (Char.ofNat 12) rest
        else if e = 'n' then step '\n' rest
        else if e = 'r' then step '\r' rest
        else if e = 't' then step '\t' rest
        else if e = 'u' then
          match rest with
          | h1 :: h2 :: h3 :: h4 :: rest2 => do
              let v1 ← hexVal h1
              let v2 ← hexVal h2
              let v3 ← hexVal h3
              let v4 ← hexVal h4
              step (Char.ofNat (((v1 * 16 + v2) * 16 + v3) * 16 + v4)) rest2
          | _ => none
        else none
    | c :: rest =>
        if c = '"' then some ("", rest)
        else if c.toNat < 32 then none
        else do
          let (s, r) ← parseStringBody fuel rest
          some (String.singleton c ++ s, r)

mutual

/-- Recursive-descent JSON parsing with fuel: values, array items and
object members, mirroring the grammar the platform parser accepts. -/
def parseValue (fuel : Nat) (cs : List Char) : Option (JsonValue × List Char) :=
  match fuel with
  | 0 => none
  | fuel + 1 =>
    match cs with
    | [] => none
    | 'n' :: 'u' :: 'l' :: 'l' :: rest => some (.null, rest)
    | 't' :: 'r' :: 'u' :: 'e' :: rest => some (.bool true, rest)
    | 'f' :: 'a' :: 'l' :: 's' :: 'e' :: rest => some (.bool false, rest)
    | c :: rest =>
        if c = '"' then do
          let (s, r) ← parseStringBody fuel rest
          some (.str s, r)
        else if c = '[' then
          match skipWs rest with
          | ']' :: r => some (.arr .nil, r)
          | rest1 => do
              let (xs, r) ← parseArrayItems fuel rest1
              some (.arr xs, r)
        else if c = charLBrace then
          match skipWs rest with
          | [] => none
          | d :: r =>
              if d = charRBrace then some (.obj .nil, r)
              else do
                let (fs, r2) ← parseObjectMembers fuel (d :: r)
                some (.obj fs, r2)
        else if c = '-' ∨ c.isDigit then do
          let (me, r) ← parseNumber (c :: rest)
          some (.num me.1 me.2, r)
        else none

def parseArrayItems (fuel : Nat) (cs : List Char) : Option (JsonArray × List Char) :=
  match fuel with
  | 0 => none
  | fuel + 1 => do
      let (v, r1) ← parseValue fuel cs
      match skipWs r1 with
      | ',' :: r3 => do
          let (tl, r4) ← parseArrayItems fuel (skipWs r3)
          some (.cons v tl, r4)
      | ']' :: r3 => some (.cons v .nil, r3)
      | _ => none

def parseObjectMembers (fuel : Nat) (cs : List Char) : Option (JsonObject × List Char) :=
  match fuel with
  | 0 => none
  | fuel + 1 =>
    match cs with
    | '"' :: rest => do
        let (k, r1) ← parseStringBody fuel rest
        match skipWs r1 with
        | ':' :: r2 => do
            let (v, r3) ← parseValue fuel (skipWs r2)
            match skipWs r3 with
            | [] => none
            | d :: r4 =>
                if d = ',' then do
                  let (tl, r5) ← parseObjectMembers fuel (skipWs r4)
                  some (.cons k v tl, r5)
                else if d = charRBrace then some (.cons k v .nil, r4)
                else none
        | _ => none
    | _ => none

end

/-- `JSON.parse` over a whole line: a single value surrounded by optional
whitespace; anything else fails. -/
def parseJson (line : String) : Option JsonValue := do
  let cs := line.toList
  let (v, rest) ← parseValue (cs.length + 2) (skipWs cs)
  if (skipWs rest).isEmpty then some v else none

/-- Whether an object owns a given key. -/
def objHasKey (key : String) : JsonObject → Bool
  | .nil => false
  | .cons k _ tl => k == key || objHasKey key tl

/-- Property lookup on an object built by the platform parser: with
duplicate keys the later occurrence is the value of the property. -/
def objGetLast (key : String) : JsonObject → Option JsonValue
  | .nil => none
  | .cons k v tl =>
      match objGetLast key tl with
      | some r => some r
      | none => if k = key then some v else none

/-- Deduplicate keys, keeping the later occurrence of each. -/
def objDedupKeepLast : JsonObject → JsonObject
  | .nil => .nil
  | .cons k v tl =>
      if objHasKey k tl then objDedupKeepLast tl else .cons k v (objDedupKeepLast tl)

/-- Remove the listed keys from an object. -/
def objRemoveKeys (keys : List String) : JsonObject → JsonObject
  | .nil => .nil
  | .cons k v tl =>
      if keys.contains k then objRemoveKeys keys tl
      else .cons k v (objRemoveKeys keys tl)

/-- Property access on an arbitrary parsed value, as destructuring reads
it: only objects own the named bookkeeping properties. -/
def jsGetField (v : JsonValue) (key : String) : Option JsonValue :=
  match v with
  | .obj fs => objGetLast key fs
  | _ => none

/-- Own enumerable indexed properties of a string, as object spread
collects them. -/
def stringIndexFields : List Char → Nat → JsonObject
  | [], _ => .nil
  | c :: tl, i => .cons (toString i) (.str (String.singleton c)) (stringIndexFields tl (i + 1))

/-- Own enumerable indexed properties of an array, as object spread
collects them. -/
def arrayIndexFields : JsonArray → Nat → JsonObject
  | .nil, _ => .nil
  | .cons v tl, i => .cons (toString i) v (arrayIndexFields tl (i + 1))

/-- The rest pattern of the destructuring in `firebaseDestination.write`:
all own enumerable properties except level, time, pid, hostname and msg. -/
def restOfParsed (v : JsonValue) : JsonObject :=
  match v with
  | .obj fs => objRemoveKeys ["level", "time", "pid", "hostname", "msg"] (objDedupKeepLast fs)
  | .str s => stringIndexFields s.toList 0
  | .arr xs => arrayIndexFields xs 0
  | _ => .nil

mutual

/-- String conversion of one array element inside a join: null (and a
hole) joins as the empty string, nested arrays join recursively, plain
objects join as their object tag string. -/
def joinElemString : JsonValue → String
  | .null => ""
  | .bool b => if b then "true" else "false"
  | .num m e => decToJsString m e
  | .str s => s
  | .arr xs => arrayJoin xs
  | .obj _ => "[object Object]"

/-- Comma join of array elements, the string conversion of an array. -/
def arrayJoin : JsonArray → String
  | .nil => ""
  | .cons v .nil => joinElemString v
  | .cons v (.cons w tl) => joinElemString v ++ "," ++ arrayJoin (.cons w tl)

end

/-- Tail of a numeric string literal: optional exponent, then the end of
the string; yields the final mantissa and exponent. -/
def finishNumericString (neg : Bool) (ids fds rest : List Char) : Option (Int × Int) := do
  let (e, r) ← parseExp rest
  if r.isEmpty then
    let mant : Int := (digitsToNat (ids ++ fds) : Int)
    let mant : Int := if neg then -mant else mant
    some (mant, e - (fds.length : Int))
  else none

/-- An ECMAScript number as the string coercion produces it: not a
number, an infinity of either sign, or a finite decimal. -/
inductive JsNumber where
  | nan
  | posInf
  | negInf
  | dec (mantissa exp10 : Int)

/-- Value of a digit under a radix, when valid for it. -/
def radixDigitVal (radix : Nat) (c : Char) : Option Nat :=
  match hexVal c with
  | some v => if v < radix then some v else none
  | none => none

/-- Value of a digit list under a radix, failing on an invalid digit. -/
def radixValue (radix : Nat) : List Char → Nat → Option Nat
  | [], acc => some acc
  | c :: tl, acc =>
      match radixDigitVal radix c with
      | some v => radixValue radix tl (acc * radix + v)
      | none => none

/-- The body of a hex, octal or binary integer literal: at least one
digit, every digit valid for the radix, no sign, fraction or exponent. -/
def parseRadixLiteral (radix : Nat) (ds : List Char) : JsNumber :=
  if ds.isEmpty then .nan
  else
    match radixValue radix ds 0 with
    | some n => .dec (n : Int) 0
    | none => .nan

/-- A signed decimal numeric string: an optional sign, then either the
Infinity literal or a decimal literal with optional fraction and
exponent, consuming the whole string. -/
def parseSignedDecimalString (cs : List Char) : JsNumber :=
  let (neg, cs1) : Bool × List Char :=
    match cs with
    | '-' :: r => (true, r)
    | '+' :: r => (false, r)
    | r => (false, r)
  if cs1 = "Infinity".toList then (if neg then .negInf else .posInf)
  else
    let (ids, r1) := takeDigits cs1
    match r1 with
    | '.' :: r2 =>
        let (fds, r3) := takeDigits r2
        if ids.isEmpty ∧ fds.isEmpty then .nan
        else
          match finishNumericString neg ids fds r3 with
          | some me => .dec me.1 me.2
          | none => .nan
    | _ =>
        if ids.isEmpty then .nan
        else
          match finishNumericString neg ids [] r1 with
          | some me => .dec me.1 me.2
          | none => .nan

/-- Numeric conversion of a string, after the ECMAScript string numeric
grammar: the trimmed empty string is zero; a 0x, 0o or 0b prefix
introduces an unsigned hex, octal or binary integer literal; otherwise an
optional sign followed by the Infinity literal or a decimal literal with
optional fraction and exponent; anything else is not a number. -/
def jsStringToNumber (s : String) : JsNumber :=
  let cs := trimWsJs s.toList
  if cs.isEmpty then .dec 0 0
  else
    match cs with
    | '0' :: x :: rest =>
        if x = 'x' ∨ x = 'X' then parseRadixLiteral 16 rest
        else if x = 'o' ∨ x = 'O' then parseRadixLiteral 8 rest
        else if x = 'b' ∨ x = 'B' then parseRadixLiteral 2 rest
        else parseSignedDecimalString cs
    | _ => parseSignedDecimalString cs

/-- Numeric coercion of the value found (or not found) at the level
property, as the comparisons in `pinoLevelToSeverity` coerce it: a
missing property coerces to no number, null to zero, booleans to zero or
one, strings and arrays through their string form under the ECMAScript
string numeric grammar, and a plain object (whose string form is its
object tag) to no number. -/
def toNumberJs : Option JsonValue → JsNumber
  | none => .nan
  | some .null => .dec 0 0
  | some (.bool b) => .dec (if b then 1 else 0) 0
  | some (.num m e) => .dec m e
  | some (.str s) => jsStringToNumber s
  | some (.arr xs) => jsStringToNumber (arrayJoin xs)
  | some (.obj _) => .nan

/-- The cascade of `pinoLevelToSeverity`, computed on a decimal with
integer arithmetic; the lemma `severityOfDecimal_eq_pino` below proves it
equal to `pinoLevelToSeverity` at the decimal value. -/
def severityOfDecimal (m e : Int) : LogSeverity :=
  if decLtNat m e 30 then .DEBUG
  else if decLtNat m e 40 then .INFO
  else if decLtNat m e 50 then .WARNING
  else if decLtNat m e 60 then .ERROR
  else .CRITICAL

/-- The comparison x < bound as the program performs it on the coerced
level: false on not-a-number and on positive infinity, true on negative
infinity, the integer range test on a finite decimal. -/
def jsNumLtNat (x : JsNumber) (bound : Nat) : Bool :=
  match x with
  | .nan => false
  | .posInf => false
  | .negInf => true
  | .dec m e => decLtNat m e bound

/-- Severity assigned to the (possibly absent or non-numeric) level
property: the cascade of `pinoLevelToSeverity` over the coerced
comparisons.  When the coercion yields no number every range comparison
is false and the final CRITICAL branch is reached; on a finite decimal
the cascade is that of `pinoLevelToSeverity` (see
`severityOfLevel_dec_eq` below). -/
def severityOfLevel (lv : Option JsonValue) : LogSeverity :=
  if jsNumLtNat (toNumberJs lv) 30 then .DEBUG
  else if jsNumLtNat (toNumberJs lv) 40 then .INFO
  else if jsNumLtNat (toNumberJs lv) 50 then .WARNING
  else if jsNumLtNat (toNumberJs lv) 60 then .ERROR
  else .CRITICAL

/-- One record forwarded to the firebase logger by
`firebaseDestination.write`. -/
structure LogRecord where
  severity : LogSeverity
  message : JsonValue
  rest : JsonObject

/-- The message field of the forwarded record: `msg` defaulted to the
empty string when absent or null. -/
def messageOf : Option JsonValue → JsonValue
  | none => .str ""
  | some .null => .str ""
  | some v => v

/-- The structured record mapped from a successfully parsed entry. -/
def mappedRecord (v : JsonValue) : LogRecord :=
  { severity := severityOfLevel (jsGetField v "level")
    message := messageOf (jsGetField v "msg")
    rest := restOfParsed v }

/-- Embedding of `firebaseDestination.write` from
packages/pino-logger/src/logger.ts: the list of records forwarded to the
firebase logger for one input line.  A parse failure is caught and falls
back to the raw line at severity ERROR; a parsed null also reaches the
catch block, because destructuring null throws. -/
def firebaseDestinationWrite (line : String) : List LogRecord :=
  match parseJson line with
  | none => [⟨.ERROR, .str line, .nil⟩]
  | some .null => [⟨.ERROR, .str line, .nil⟩]
  | some v => [mappedRecord v]

/-- The process environment fields the repository reads. -/
structure ProcessEnv where
  FUNCTIONS_EMULATOR : Option String := none
  NODE_ENV : Option String := none
  LOG_LEVEL : Option String := none

/-- Embedding of `isLocalEnvironment` from
packages/pino-logger/src/logger.ts. -/
def isLocalEnvironment (env : ProcessEnv) : Bool :=
  env.FUNCTIONS_EMULATOR == some "true" || env.NODE_ENV == some "test" ||
    env.NODE_ENV == some "development"

/-- Embedding of the mode-selection condition of the tslog-based logger
module (the `logger` constant of the function-logger package): the same
three-signal test as `isLocalEnvironment`. -/
def loggerModuleIsDevelopment (env : ProcessEnv) : Bool :=
  env.FUNCTIONS_EMULATOR == some "true" || env.NODE_ENV == some "test" ||
    env.NODE_ENV == some "development"

/-- Embedding of `getMinLevel` from the function-logger module: the
environment value defaulted to "debug" is switched over the four
recognized names, any other name yielding 0. -/
def getMinLevel (logLevelEnv : Option String) : Nat :=
  let logLevel := logLevelEnv.getD "debug"
  if logLevel = "debug" then 2
  else if logLevel = "info" then 3
  else if logLevel = "warn" then 4
  else if logLevel = "error" then 5
  else 0

/-- The four facade methods that carry a tslog level
(the `log` method of the facade aliases `info`). -/
inductive FacadeMethod where
  | debug
  | info
  | warn
  | error
deriving DecidableEq, Repr

/-- tslog numeric level of each facade method
(tslog: 0 silly, 1 trace, 2 debug, 3 info, 4 warn, 5 error, 6 fatal). -/
def facadeMethodLevel : FacadeMethod → Nat
  | .debug => 2
  | .info => 3
  | .warn => 4
  | .error => 5

/-- Modelled from the spec: the tslog backend itself is an external
library, and the spec states that in development mode "messages below the
minimum are suppressed"; a message is emitted iff its method level is at
least the configured minimum level. -/
def facadeEmits (minLevel : Nat) (m : FacadeMethod) : Bool :=
  minLevel ≤ facadeMethodLevel m

/-- First-match association lookup. -/
def lookupA {α : Type} (m : List (String × α)) (k : String) : Option α :=
  (m.find? (fun kv => kv.1 == k)).map (fun kv => kv.2)

/-- Object-spread merge of two association lists: the update wins key
collisions, keys of both sides survive.  The update is listed first so
that first-match lookup prefers it; no caller observes iteration
order. -/
def mergeRight {α : Type} (base upd : List (String × α)) : List (String × α) :=
  upd ++ base.filter (fun kv => (upd.find? (fun uv => uv.1 == kv.1)).isNone)

/-- Left-biased choice on options. -/
def oOr {α : Type} : Option α → Option α → Option α
  | some v, _ => some v
  | none, b => b

/-- The outgoing Sentry error report, restricted to the fields this
repository touches: extra data, tags, context blocks, fingerprint and the
handled flag of the exception mechanism. -/
structure SentryEventModel where
  extra : List (String × String) := []
  tags : List (String × String) := []
  contexts : List (String × String) := []
  fingerprint : Option (List String) := none
  mechanismHandled : Option Bool := none

/-- The `addExceptionMechanism` helper of the Sentry SDK, restricted to
the handled flag the wrapper sets. -/
def addExceptionMechanism (event : SentryEventModel) (handled : Bool) : SentryEventModel :=
  { event with mechanismHandled := some handled }

/-- One field of a scope context block: a string, a raw (unstringified)
value, or an undefined value. -/
inductive CtxField where
  | str (s : String)
  | json (v : JsonValue)
  | jsUndefined

/-- A Sentry scope: tags, context blocks, user identity and the attached
event processors. -/
structure Scope where
  tags : List (String × String) := []
  contexts : List (String × List (String × CtxField)) := []
  user : Option String := none
  eventProcessors : List (SentryEventModel → SentryEventModel) := []

/-- `scope.setTag`. -/
def Scope.setTag (s : Scope) (k v : String) : Scope :=
  { s with tags := mergeRight s.tags [(k, v)] }

/-- `scope.setContext`. -/
def Scope.setContext (s : Scope) (k : String) (fields : List (String × CtxField)) : Scope :=
  { s with contexts := mergeRight s.contexts [(k, fields)] }

/-- `scope.setUser`. -/
def Scope.setUser (s : Scope) (id : String) : Scope :=
  { s with user := some id }

/-- `scope.addEventProcessor`: processors accumulate in call order. -/
def Scope.addEventProcessor (s : Scope) (p : SentryEventModel → SentryEventModel) : Scope :=
  { s with eventProcessors := s.eventProcessors ++ [p] }

/-- Run the event processors of a scope over an event, in order. -/
def runEventProcessors (s : Scope) (e : SentryEventModel) : SentryEventModel :=
  s.eventProcessors.foldl (fun ev p => p ev) e

/-- Embedding of `markEventUnhandled` from
packages/sentry/src/sentry-wrapper.ts: adds an event processor that sets
the exception mechanism to handled false, and returns the scope. -/
def markEventUnhandled (scope : Scope) : Scope :=
  scope.addEventProcessor (fun event => addExceptionMechanism event false)

/-- Observable telemetry effects of one wrapped invocation, in order. -/
inductive SentryEff (ε : Type) where
  | spanStart (name : String) (op : String)
  | scoped (scope : Scope)
  | logError (e : ε)
  | capture (e : ε) (scope : Scope)
  | flush (timeoutMs : Nat)

/-- Whether an effect is a flush. -/
def isFlushEff {ε : Type} : SentryEff ε → Bool
  | .flush _ => true
  | _ => false

/-- The errors passed to captureException along a trace, in order. -/
def capturedErrors {ε : Type} : List (SentryEff ε) → List ε
  | [] => []
  | .capture e _ :: tl => e :: capturedErrors tl
  | _ :: tl => capturedErrors tl

/-- The scopes produced by the captureException scope callbacks along a
trace, in order. -/
def captureScopes {ε : Type} : List (SentryEff ε) → List Scope
  | [] => []
  | .capture _ s :: tl => s :: captureScopes tl
  | _ :: tl => captureScopes tl

/-- The scopes configured for the span along a trace, in order. -/
def scopedScopes {ε : Type} : List (SentryEff ε) → List Scope
  | [] => []
  | .scoped s :: tl => s :: scopedScopes tl
  | _ :: tl => scopedScopes tl

/-- Embedding of `sentryCaptureUnhandledExceptionWrapper` from
packages/sentry/src/sentry-wrapper.ts.  The awaited work either resolves
or rejects; on rejection the error is logged locally outside production,
captured once with a scope callback that first marks the event unhandled
and then applies the optional capture context, and rethrown identically.
The ambient scope is the scope the surrounding withScope installed. -/
def sentryCaptureUnhandledExceptionWrapper {ε ρ : Type} (nodeEnv : Option String)
    (work : Except ε ρ) (captureContext : Option (Scope → Scope))
    (ambient : Scope) : Except ε ρ × List (SentryEff ε) :=
  match work with
  | .ok r => (.ok r, [])
  | .error e =>
      let logEffs : List (SentryEff ε) :=
        if nodeEnv = some "production" then [] else [.logError e]
      let cbScope : Scope :=
        match captureContext with
        | some f => f (markEventUnhandled ambient)
        | none => markEventUnhandled ambient
      (.error e, logEffs ++ [.capture e cbScope])

/-- The name and operation of the started span. -/
structure StartSpanOptions where
  name : String
  op : String

/-- Embedding of `sentryConfigurationWrapper` from
packages/sentry/src/sentry-wrapper.ts: a span is started, a fresh scope is
created and configured, the work runs inside it, and the finally block
flushes with the fixed 5000 ms budget whether the work resolved or
rejected. -/
def sentryConfigurationWrapper {ε ρ : Type} (context : StartSpanOptions)
    (configure : Scope → Scope) (work : Scope → Except ε ρ × List (SentryEff ε)) :
    Except ε ρ × List (SentryEff ε) :=
  let scope := configure {}
  let (res, effs) := work scope
  (res, .spanStart context.name context.op :: .scoped scope :: effs ++ [.flush 5000])

/-- The composition every trigger wrapper uses: the configuration wrapper
whose work is the unhandled-exception capture wrapper around the user
handler, with no extra capture context. -/
def sentryWrappedInvocation {ε ρ : Type} (nodeEnv : Option String)
    (context : StartSpanOptions) (configure : Scope → Scope) (work : Except ε ρ) :
    Except ε ρ × List (SentryEff ε) :=
  sentryConfigurationWrapper context configure
    (fun scope => sentryCaptureUnhandledExceptionWrapper nodeEnv work none scope)

/-- The options record every wrapper takes. -/
structure SentryWrapperParams where
  name : String

/-- The v1 event context, restricted to the fields the wrappers read. -/
structure EventContext where
  eventId : String
  eventType : String
  resource : JsonValue
  timestamp : String
  params : JsonValue

/-- Embedding of `sentryInvocationV1Wrapper` from
packages/sentry/src/sentry-wrapper.ts: the trigger-specific configure
runs first, then the v1 version and name tags, then the Firebase Context
block, with the event type as span operation. -/
def sentryInvocationV1Wrapper {ε ρ : Type} (nodeEnv : Option String)
    (options : SentryWrapperParams) (context : EventContext)
    (configure : Scope → Scope) (work : Except ε ρ) :
    Except ε ρ × List (SentryEff ε) :=
  sentryWrappedInvocation nodeEnv ⟨options.name, context.eventType⟩
    (fun scope =>
      (((configure scope).setTag "function.version" "v1").setTag
          "function.name" options.name).setContext "Firebase Context"
        [("eventId", .str context.eventId), ("eventType", .str context.eventType),
         ("resource", .json context.resource), ("timestamp", .str context.timestamp)])
    work

/-- A v1 document reference. -/
structure DocumentReference where
  id : String
  path : String

/-- A v1 document snapshot; `data` is the document body, absent when the
document does not exist. -/
structure DocumentSnapshot where
  ref : DocumentReference
  data : Option JsonValue

/-- A v1 before and after change pair. -/
structure Change where
  before : DocumentSnapshot
  after : DocumentSnapshot

/-- The value `JSON.stringify(data, null, 2)` stores in a context field:
the two-space stringification, or an undefined field for an absent
body. -/
def stringifiedBody : Option JsonValue → CtxField
  | some d => .str (jsonStringify2 d)
  | none => .jsUndefined

/-- Embedding of `sentryOnWriteV1Wrapper` from
packages/sentry/src/sentry-wrapper.ts: the Firestore Document block
carries the params, the before reference id and path, and the before and
after bodies stringified with a two-space gap. -/
def sentryOnWriteV1Wrapper {ε ρ : Type} (nodeEnv : Option String)
    (options : SentryWrapperParams) (handler : Change → EventContext → Except ε ρ)
    (change : Change) (context : EventContext) :
    Except ε ρ × List (SentryEff ε) :=
  sentryInvocationV1Wrapper nodeEnv options context
    (fun scope => scope.setContext "Firestore Document"
      [("param", .json context.params),
       ("id", .str change.before.ref.id),
       ("path", .str change.before.ref.path),
       ("before", stringifiedBody change.before.data),
       ("after", stringifiedBody change.after.data)])
    (handler change context)

/-- The v2 cloud event envelope, restricted to the fields the wrappers
read. -/
structure CloudEventMeta where
  id : String
  type : String
  source : String
  subject : Option String
  time : String

/-- A context field holding an optional string. -/
def optStrField : Option String → CtxField
  | some s => .str s
  | none => .jsUndefined

/-- The v2 Firestore event: the cloud event envelope plus the document
path and the raw event data payload. -/
structure FirestoreEvent extends CloudEventMeta where
  document : String
  data : Option JsonValue

/-- Embedding of `sentryInvocationV2Wrapper` from
packages/sentry/src/sentry-wrapper.ts. -/
def sentryInvocationV2Wrapper {ε ρ : Type} (nodeEnv : Option String)
    (options : SentryWrapperParams) (event : CloudEventMeta)
    (configure : Scope → Scope) (work : Except ε ρ) :
    Except ε ρ × List (SentryEff ε) :=
  sentryWrappedInvocation nodeEnv ⟨options.name, event.type⟩
    (fun scope =>
      (((configure scope).setTag "function.version" "v2").setTag
          "function.name" options.name).setContext "Firebase Context"
        [("eventId", .str event.id), ("eventType", .str event.type),
         ("source", .str event.source), ("subject", optStrField event.subject),
         ("timestamp", .str event.time)])
    work

/-- Embedding of `sentryWrapOnDocumentChange` from
packages/sentry/src/sentry-wrapper.ts: the Firestore Document block
carries the document path and the raw event data, with no
stringification. -/
def sentryWrapOnDocumentChange {ε ρ : Type} (nodeEnv : Option String)
    (options : SentryWrapperParams) (handler : FirestoreEvent → Except ε ρ)
    (event : FirestoreEvent) : Except ε ρ × List (SentryEff ε) :=
  sentryInvocationV2Wrapper nodeEnv options event.toCloudEventMeta
    (fun scope => scope.setContext "Firestore Document"
      [("document", .str event.document),
       ("data", match event.data with | some d => .json d | none => .jsUndefined)])
    (handler event)

/-- The capture context a context-carrying error owns: three independent
optionally present mappings and an optional fingerprint. -/
structure SentryCaptureContext where
  extra : Option (List (String × String)) := none
  tags : Option (List (String × String)) := none
  contexts : Option (List (String × String)) := none
  fingerprint : Option (List String) := none

/-- Modelled from the spec: the class ErrorWithSentryCaptureContext (file
error-with-sentry-capture-context.ts) is not under src, only its tests and
its callers are.  Per sections 4.4 and 9 of the spec, its beforeSend
method merges the extra mapping, the tag mapping and the context blocks of
the capture context into the outgoing event with the applied layer winning
key collisions (last write wins at every application), and a present
fingerprint replaces the event fingerprint rather than merging with it. -/
def beforeSend (ctx : SentryCaptureContext) (event : SentryEventModel) : SentryEventModel :=
  { event with
    extra := match ctx.extra with
      | some xs => mergeRight event.extra xs
      | none => event.extra
    tags := match ctx.tags with
      | some xs => mergeRight event.tags xs
      | none => event.tags
    contexts := match ctx.contexts with
      | some xs => mergeRight event.contexts xs
      | none => event.contexts
    fingerprint := match ctx.fingerprint with
      | some f => some f
      | none => event.fingerprint }

/-- The original exception of a report, as the pre-send hook sees it: a
context-carrying error with its cause, or any other value (a plain error,
a missing cause, a non-error), at which the walk stops. -/
inductive SentryExceptionValue where
  | other
  | ecc (ctx : SentryCaptureContext) (cause : SentryExceptionValue)

/-- Embedding of `processErrorWithSentryCaptureContext` from the
init-sentry module: apply the beforeSend of the outermost layer, then
recurse into the cause while it is a context-carrying error. -/
def processErrorWithSentryCaptureContext (event : SentryEventModel) :
    SentryExceptionValue → SentryEventModel
  | .other => event
  | .ecc ctx cause => processErrorWithSentryCaptureContext (beforeSend ctx event) cause

/-- The capture-context layers of a cause chain, outermost first. -/
def walkLayers : SentryExceptionValue → List SentryCaptureContext
  | .other => []
  | .ecc ctx cause => ctx :: walkLayers cause

/-- The tag a capture-context layer assigns to a key, when its tag
mapping is present and holds the key. -/
def ctxTagAt (ctx : SentryCaptureContext) (k : String) : Option String :=
  match ctx.tags with
  | some ts => lookupA ts k
  | none => none

/-- The extra datum a capture-context layer assigns to a key. -/
def ctxExtraAt (ctx : SentryCaptureContext) (k : String) : Option String :=
  match ctx.extra with
  | some xs => lookupA xs k
  | none => none

/-- The value of the chronologically last tag write to a key over a layer
list applied in order. -/
def lastTagWrite (layers : List SentryCaptureContext) (k : String) : Option String :=
  layers.foldl (fun acc ctx => oOr (ctxTagAt ctx k) acc) none

/-- The value of the chronologically last extra write to a key over a
layer list applied in order. -/
def lastExtraWrite (layers : List SentryCaptureContext) (k : String) : Option String :=
  layers.foldl (fun acc ctx => oOr (ctxExtraAt ctx k) acc) none

/-- C5: the numeric-level-to-severity mapping follows the half-open
ranges [0,30) DEBUG, [30,40) INFO, [40,50) WARNING, [50,60) ERROR,
[60,inf) CRITICAL, is monotone in the level, and takes the nine stated
boundary values. -/
theorem pinoSeverityRangesAndMonotone :
    (∀ l : ℚ, 0 ≤ l → l < 30 → pinoLevelToSeverity l = .DEBUG) ∧
    (∀ l : ℚ, 30 ≤ l → l < 40 → pinoLevelToSeverity l = .INFO) ∧
    (∀ l : ℚ, 40 ≤ l → l < 50 → pinoLevelToSeverity l = .WARNING) ∧
    (∀ l : ℚ, 50 ≤ l → l < 60 → pinoLevelToSeverity l = .ERROR) ∧
    (∀ l : ℚ, 60 ≤ l → pinoLevelToSeverity l = .CRITICAL) ∧
    (∀ a b : ℚ, a ≤ b →
      severityRank (pinoLevelToSeverity a) ≤ severityRank (pinoLevelToSeverity b)) ∧
    pinoLevelToSeverity 29 = .DEBUG ∧ pinoLevelToSeverity 30 = .INFO ∧
    pinoLevelToSeverity 39 = .INFO ∧ pinoLevelToSeverity 40 = .WARNING ∧
    pinoLevelToSeverity 49 = .WARNING ∧ pinoLevelToSeverity 50 = .ERROR ∧
    pinoLevelToSeverity 59 = .ERROR ∧ pinoLevelToSeverity 60 = .CRITICAL ∧
    pinoLevelToSeverity 1000 = .CRITICAL := by
  refine ⟨?_, ?_, ?_, ?_, ?_, ?_, ?_⟩
  · intro l _ h2
    unfold pinoLevelToSeverity
    split_ifs <;> first | rfl | linarith
  · intro l h1 h2
    unfold pinoLevelToSeverity
    split_ifs <;> first | rfl | linarith
  · intro l h1 h2
    unfold pinoLevelToSeverity
    split_ifs <;> first | rfl | linarith
  · intro l h1 h2
    unfold pinoLevelToSeverity
    split_ifs <;> first | rfl | linarith
  · intro l h1
    unfold pinoLevelToSeverity
    split_ifs <;> first | rfl | linarith
  · intro a b hab
    unfold pinoLevelToSeverity
    split_ifs <;> simp only [severityRank] <;> first | omega | linarith
  · refine ⟨?_, ?_, ?_, ?_, ?_, ?_, ?_, ?_, ?_⟩ <;> norm_num [pinoLevelToSeverity]

/-- Witness for C5 at concrete levels. -/
theorem pinoSeverityRangesAndMonotoneWitness :
    pinoLevelToSeverity 29 = .DEBUG ∧ pinoLevelToSeverity 45 = .WARNING ∧
    severityRank (pinoLevelToSeverity 29) ≤ severityRank (pinoLevelToSeverity 1000) :=
  ⟨pinoSeverityRangesAndMonotone.1 29 (by norm_num) (by norm_num),
   pinoSeverityRangesAndMonotone.2.2.1 45 (by norm_num) (by norm_num),
   pinoSeverityRangesAndMonotone.2.2.2.2.2.1 29 1000 (by norm_num)⟩

/-- C9: development mode is selected iff one of the three environment
signals qualifies, the same condition governs both logger modules, and
setting any single signal to a qualifying value selects development mode
whatever the other fields hold. -/
theorem modeSelectionPureAndSwitchable :
    (∀ env : ProcessEnv, isLocalEnvironment env = true ↔
      (env.FUNCTIONS_EMULATOR = some "true" ∨ env.NODE_ENV = some "test" ∨
        env.NODE_ENV = some "development")) ∧
    (∀ env : ProcessEnv, loggerModuleIsDevelopment env = isLocalEnvironment env) ∧
    (∀ env : ProcessEnv,
      isLocalEnvironment { env with FUNCTIONS_EMULATOR := some "true" } = true) ∧
    (∀ env : ProcessEnv, isLocalEnvironment { env with NODE_ENV := some "test" } = true) ∧
    (∀ env : ProcessEnv,
      isLocalEnvironment { env with NODE_ENV := some "development" } = true) := by
  refine ⟨fun env => ?_, fun env => rfl, fun env => ?_, fun env => ?_, fun env => ?_⟩ <;>
    simp [isLocalEnvironment, or_assoc]

/-- C8 counterexample: with the level name unset, the minimum level is 2
(the value for the default name debug), not 0 as the claim states. -/
theorem getMinLevelUnsetIsTwo : getMinLevel none = 2 ∧ getMinLevel none ≠ 0 := by
  decide

/-- C8 as amended: debug maps to 2, info to 3, warn to 4, error to 5, any
other set value to 0, and unset defaults to debug and therefore to 2; in
development mode each of the four recognized names suppresses exactly the
facade methods whose level is strictly below the derived minimum. -/
theorem logLevelMinimumAndSuppression :
    getMinLevel (some "debug") = 2 ∧ getMinLevel (some "info") = 3 ∧
    getMinLevel (some "warn") = 4 ∧ getMinLevel (some "error") = 5 ∧
    getMinLevel none = 2 ∧
    (∀ s : String, s ≠ "debug" → s ≠ "info" → s ≠ "warn" → s ≠ "error" →
      getMinLevel (some s) = 0) ∧
    (∀ m : FacadeMethod, facadeEmits (getMinLevel (some "debug")) m = true) ∧
    (∀ m : FacadeMethod,
      facadeEmits (getMinLevel (some "info")) m = true ↔ m ≠ .debug) ∧
    (∀ m : FacadeMethod,
      facadeEmits (getMinLevel (some "warn")) m = true ↔ (m = .warn ∨ m = .error)) ∧
    (∀ m : FacadeMethod,
      facadeEmits (getMinLevel (some "error")) m = true ↔ m = .error) := by
  refine ⟨rfl, rfl, rfl, rfl, rfl, ?_, ?_, ?_, ?_, ?_⟩
  · intro s h1 h2 h3 h4
    simp [getMinLevel, h1, h2, h3, h4]
  all_goals intro m; cases m <;> simp [facadeEmits, facadeMethodLevel, getMinLevel]

/-- Witness for C8 at a concrete unrecognized name. -/
theorem logLevelMinimumAndSuppressionWitness :
    getMinLevel (some "verbose") = 0 ∧
    facadeEmits (getMinLevel (some "warn")) .debug ≠ true :=
  ⟨logLevelMinimumAndSuppression.2.2.2.2.2.1 "verbose"
      (by decide) (by decide) (by decide) (by decide),
   by
    have h := (logLevelMinimumAndSuppression.2.2.2.2.2.2.2.2.1 FacadeMethod.debug)
    simp only [ne_eq]
    intro hcontr
    rcases h.mp hcontr with h1 | h1 <;> cases h1⟩

/-- C4 counterexample: the line consisting of the JSON text null parses
successfully, yet the forwarded record is the raw-line fallback at
severity ERROR, not the mapped structured record (which would carry
severity CRITICAL): destructuring a parsed null throws and lands in the
catch block. -/
theorem writeTopLevelNullFallsBack :
    parseJson "null" = some .null ∧
    firebaseDestinationWrite "null" = [⟨.ERROR, .str "null", .nil⟩] ∧
    (mappedRecord .null).severity = .CRITICAL ∧
    LogSeverity.ERROR ≠ LogSeverity.CRITICAL :=
  ⟨rfl, rfl, rfl, by decide⟩

/-- Every input line yields exactly one forwarded record. -/
theorem write_length_one (line : String) : (firebaseDestinationWrite line).length = 1 := by
  unfold firebaseDestinationWrite
  cases h : parseJson line with
  | none => rfl
  | some v => cases v <;> rfl

/-- A line that fails to parse yields the raw-line ERROR fallback. -/
theorem write_fallback_of_parse_none (line : String) (h : parseJson line = none) :
    firebaseDestinationWrite line = [⟨.ERROR, .str line, .nil⟩] := by
  unfold firebaseDestinationWrite
  rw [h]

/-- A line that parses to null yields the raw-line ERROR fallback. -/
theorem write_fallback_of_parse_null (line : String) (h : parseJson line = some .null) :
    firebaseDestinationWrite line = [⟨.ERROR, .str line, .nil⟩] := by
  unfold firebaseDestinationWrite
  rw [h]

/-- A line that parses to a non-null value yields the mapped record. -/
theorem write_mapped_of_parse_some (line : String) (v : JsonValue)
    (h : parseJson line = some v) (hne : v ≠ .null) :
    firebaseDestinationWrite line = [mappedRecord v] := by
  unfold firebaseDestinationWrite
  rw [h]
  cases v with
  | null => exact absurd rfl hne
  | bool b => rfl
  | num m e => rfl
  | str s => rfl
  | arr xs => rfl
  | obj fs => rfl

/-- C4 as amended: for every input line the write never throws and
forwards exactly one record; on parse failure, and also when the parsed
value is null (whose destructuring throws into the same catch block), the
record is the raw line at severity ERROR; on a successfully parsed
non-null value it is the mapped structured record. -/
theorem writeForwardsExactlyOneRecord :
    (∀ line : String, (firebaseDestinationWrite line).length = 1) ∧
    (∀ line : String, parseJson line = none →
      firebaseDestinationWrite line = [⟨.ERROR, .str line, .nil⟩]) ∧
    (∀ line : String, parseJson line = some .null →
      firebaseDestinationWrite line = [⟨.ERROR, .str line, .nil⟩]) ∧
    (∀ (line : String) (v : JsonValue), parseJson line = some v → v ≠ .null →
      firebaseDestinationWrite line = [mappedRecord v]) :=
  ⟨write_length_one, write_fallback_of_parse_none, write_fallback_of_parse_null,
    write_mapped_of_parse_some⟩

/-- Witness for C4 at the line holding an empty JSON object. -/
theorem writeForwardsExactlyOneRecordWitness :
    (firebaseDestinationWrite "\x7b\x7d").length = 1 ∧
    firebaseDestinationWrite "invalid json" = [⟨.ERROR, .str "invalid json", .nil⟩] ∧
    firebaseDestinationWrite "\x7b\x7d" = [mappedRecord (.obj .nil)] :=
  ⟨writeForwardsExactlyOneRecord.1 "\x7b\x7d",
   writeForwardsExactlyOneRecord.2.1 "invalid json" rfl,
   writeForwardsExactlyOneRecord.2.2.2 "\x7b\x7d" (.obj .nil) rfl
     (fun h => JsonValue.noConfusion h)⟩

/-- C10 counterexample: the line whose level property is the JSON null
parses, its level is not a number, yet the forwarded severity is DEBUG,
not CRITICAL: null coerces to zero under the range comparisons, so the
first comparison is true rather than every comparison being false. -/
theorem nullLevelMapsToDebug :
    firebaseDestinationWrite "\x7b\"level\":null\x7d" = [⟨.DEBUG, .str "", .nil⟩] ∧
    LogSeverity.DEBUG ≠ LogSeverity.CRITICAL :=
  ⟨rfl, by decide⟩

/-- C10 as amended: for every line parsing to a non-null value whose
level property is absent or coerces to no number at all under the
ECMAScript numeric coercion (an absent key, a string outside the numeric
string grammar, a plain object), every range comparison is false and the
forwarded record carries severity CRITICAL with the msg property, or the
empty string when msg is absent or null, as its message. -/
theorem nanLevelFallsToCritical :
    (∀ (line : String) (v : JsonValue), parseJson line = some v → v ≠ .null →
      toNumberJs (jsGetField v "level") = .nan →
      firebaseDestinationWrite line =
        [⟨.CRITICAL, messageOf (jsGetField v "msg"), restOfParsed v⟩]) ∧
    (∀ w : Option JsonValue,
      messageOf w = .str "" ∨ ∃ m : JsonValue, w = some m ∧ messageOf w = m) := by
  constructor
  · intro line v h hne hnan
    rw [write_mapped_of_parse_some line v h hne]
    unfold mappedRecord severityOfLevel
    rw [hnan]
    rfl
  · intro w
    match w with
    | none => exact Or.inl rfl
    | some .null => exact Or.inl rfl
    | some (.bool b) => exact Or.inr ⟨.bool b, rfl, rfl⟩
    | some (.num m e) => exact Or.inr ⟨.num m e, rfl, rfl⟩
    | some (.str s) => exact Or.inr ⟨.str s, rfl, rfl⟩
    | some (.arr xs) => exact Or.inr ⟨.arr xs, rfl, rfl⟩
    | some (.obj fs) => exact Or.inr ⟨.obj fs, rfl, rfl⟩

/-- Witness for C10 at a parsed object without a level key. -/
theorem nanLevelFallsToCriticalWitness :
    firebaseDestinationWrite "\x7b\"a\":1\x7d" =
      [⟨.CRITICAL, .str "", .cons "a" (.num 1 0) .nil⟩] :=
  nanLevelFallsToCritical.1 "\x7b\"a\":1\x7d" (.obj (.cons "a" (.num 1 0) .nil)) rfl
    (fun h => JsonValue.noConfusion h) rfl

/-- The integer range test agrees with the rational comparison at the
decimal value. -/
theorem decLtNat_iff (m e : Int) (b : Nat) :
    decLtNat m e b = true ↔ decToRat m e < (b : ℚ) := by
  unfold decLtNat decToRat
  by_cases he : 0 ≤ e
  · simp only [if_pos he, decide_eq_true_eq]
    exact_mod_cast Iff.rfl
  · simp only [if_neg he, decide_eq_true_eq]
    rw [div_lt_iff₀ (by positivity)]
    constructor
    · intro h
      exact_mod_cast h
    · intro h
      exact_mod_cast h

/-- The integer-arithmetic severity cascade agrees with the source
cascade `pinoLevelToSeverity` at the decimal value. -/
theorem severityOfDecimal_eq_pino (m e : Int) :
    severityOfDecimal m e = pinoLevelToSeverity (decToRat m e) := by
  unfold severityOfDecimal pinoLevelToSeverity
  simp only [decLtNat_iff, Nat.cast_ofNat]

/-- On a finite coerced decimal, the severity cascade over the coerced
comparisons is the integer cascade, hence `pinoLevelToSeverity` at the
decimal value. -/
theorem severityOfLevel_dec_eq (lv : Option JsonValue) (m e : Int)
    (h : toNumberJs lv = .dec m e) :
    severityOfLevel lv = severityOfDecimal m e := by
  unfold severityOfLevel severityOfDecimal
  rw [h]
  rfl

/-- C6: when the user handler resolves with a value, every wrapped
invocation resolves with the identical value, and the flush with the fixed
5000 ms budget happens exactly once, as the last effect, after the
handler resolved and before the wrapper returns. -/
theorem resolvedHandlerReturnsValueAndFlushesOnce :
    ∀ (ε ρ : Type) (nodeEnv : Option String) (context : StartSpanOptions)
      (configure : Scope → Scope) (v : ρ),
      (sentryWrappedInvocation (ε := ε) nodeEnv context configure (.ok v)).1 = .ok v ∧
      ((sentryWrappedInvocation (ε := ε) nodeEnv context configure (.ok v)).2.filter
        isFlushEff) = [.flush 5000] ∧
      (sentryWrappedInvocation (ε := ε) nodeEnv context configure
        (.ok v)).2.getLast? = some (.flush 5000) := by
  intro ε ρ nodeEnv context configure v
  refine ⟨rfl, ?_, ?_⟩ <;>
    simp [sentryWrappedInvocation, sentryConfigurationWrapper,
      sentryCaptureUnhandledExceptionWrapper, isFlushEff, List.filter]

/-- C3: when the user handler rejects with an error, every wrapped
invocation rejects with the identical error, captureException happens
exactly once and its scope callback marks the event mechanism unhandled
(running the processors of the captured scope on any event sets the
handled flag to false), and the flush is still the last effect before the
wrapper settles. -/
theorem rejectedHandlerRethrowsCapturesOnceFlushes :
    ∀ (ε ρ : Type) (nodeEnv : Option String) (context : StartSpanOptions)
      (configure : Scope → Scope) (e : ε),
      (sentryWrappedInvocation (ε := ε) (ρ := ρ) nodeEnv context configure
        (.error e)).1 = .error e ∧
      capturedErrors (sentryWrappedInvocation (ε := ε) (ρ := ρ) nodeEnv context configure
        (.error e)).2 = [e] ∧
      (captureScopes (sentryWrappedInvocation (ε := ε) (ρ := ρ) nodeEnv context configure
        (.error e)).2).length = 1 ∧
      (∀ s, s ∈ captureScopes (sentryWrappedInvocation (ε := ε) (ρ := ρ) nodeEnv context
          configure (.error e)).2 →
        ∀ ev : SentryEventModel, (runEventProcessors s ev).mechanismHandled = some false) ∧
      (sentryWrappedInvocation (ε := ε) (ρ := ρ) nodeEnv context configure
        (.error e)).2.getLast? = some (.flush 5000) := by
  intro ε ρ nodeEnv context configure e
  by_cases hp : nodeEnv = some "production" <;>
    refine ⟨rfl, ?_, ?_, ?_, ?_⟩ <;>
    simp only [sentryWrappedInvocation, sentryConfigurationWrapper,
      sentryCaptureUnhandledExceptionWrapper, hp, if_pos, if_neg, ite_true, ite_false,
      List.nil_append, List.cons_append, List.singleton_append, capturedErrors,
      captureScopes, List.length_cons, List.length_nil, List.getLast?] <;>
    first
    | rfl
    | (intro s hs ev
       simp only [List.mem_cons, List.mem_singleton, List.not_mem_nil, or_false] at hs
       subst hs
       simp [runEventProcessors, markEventUnhandled, Scope.addEventProcessor,
         List.foldl_append, addExceptionMechanism])

/-- Witness for C3 at a concrete rejecting invocation. -/
theorem rejectedHandlerWitness :
    (sentryWrappedInvocation (ε := String) (ρ := Unit) none ⟨"fn", "op"⟩ id
      (.error "boom")).1 = .error "boom" ∧
    (runEventProcessors (markEventUnhandled {}) {}).mechanismHandled = some false := by
  constructor
  · exact (rejectedHandlerRethrowsCapturesOnceFlushes String Unit none ⟨"fn", "op"⟩ id
      "boom").1
  · exact (rejectedHandlerRethrowsCapturesOnceFlushes String Unit none ⟨"fn", "op"⟩ id
      "boom").2.2.2.1 (markEventUnhandled {})
      (by
        show markEventUnhandled {} ∈ captureScopes _
        exact List.Mem.head _) {}

/-- The scope attached to the span of a wrapped invocation is the
configured fresh scope, whatever the handler outcome. -/
theorem scopedScopes_wrappedInvocation {ε ρ : Type} (nodeEnv : Option String)
    (context : StartSpanOptions) (configure : Scope → Scope) (work : Except ε ρ) :
    scopedScopes (sentryWrappedInvocation nodeEnv context configure work).2 =
      [configure {}] := by
  cases work <;> by_cases hp : nodeEnv = some "production" <;>
    simp [sentryWrappedInvocation, sentryConfigurationWrapper,
      sentryCaptureUnhandledExceptionWrapper, scopedScopes, hp]

/-- C7 counterexample: a concrete v2 document-change invocation whose
Firestore Document context block has no before field at all, while the
claim demands before and after bodies stringified with a two-space gap. -/
theorem v2DocumentChangeOmitsStringifiedBodies :
    (scopedScopes ((sentryWrapOnDocumentChange (ε := Unit) (ρ := Unit) none ⟨"fn"⟩
        (fun _ => .ok ())
        { id := "1", type := "written", source := "src", subject := none, time := "t",
          document := "users/123",
          data := some (.obj (.cons "a" (.num 1 0) .nil)) }).2)).map
      (fun s => (lookupA s.contexts "Firestore Document").map
        (fun fields => (lookupA fields "before", lookupA fields "document")))
      = [some (none, some (.str "users/123"))] ∧
    (none : Option CtxField) ≠
      some (.str (jsonStringify2 (.obj (.cons "a" (.num 1 0) .nil)))) :=
  ⟨rfl, fun h => Option.noConfusion h⟩

/-- C7 as amended: the legacy v1 write wrapper's Firestore Document
context block carries the before and after document bodies stringified
with a two-space gap (an undefined field for an absent body), while the
v2 document-change wrapper's block instead carries the document path and
the raw event data, with no before or after fields. -/
theorem documentChangeContextBlocks :
    (∀ (ε ρ : Type) (nodeEnv : Option String) (options : SentryWrapperParams)
       (handler : Change → EventContext → Except ε ρ) (change : Change)
       (context : EventContext),
      (scopedScopes (sentryOnWriteV1Wrapper nodeEnv options handler change context).2).map
        (fun s => (lookupA s.contexts "Firestore Document").map
          (fun fields => (lookupA fields "before", lookupA fields "after")))
        = [some (some (stringifiedBody change.before.data),
                 some (stringifiedBody change.after.data))]) ∧
    (∀ (ε ρ : Type) (nodeEnv : Option String) (options : SentryWrapperParams)
       (handler : FirestoreEvent → Except ε ρ) (event : FirestoreEvent),
      (scopedScopes (sentryWrapOnDocumentChange nodeEnv options handler event).2).map
        (fun s => (lookupA s.contexts "Firestore Document").map
          (fun fields => (lookupA fields "before", lookupA fields "after",
                          lookupA fields "document")))
        = [some (none, none, some (.str event.document))]) ∧
    (∀ d : JsonValue, stringifiedBody (some d) = .str (jsonStringify2 d)) := by
  refine ⟨?_, ?_, fun d => rfl⟩
  · intro ε ρ nodeEnv options handler change context
    rw [sentryOnWriteV1Wrapper, sentryInvocationV1Wrapper, scopedScopes_wrappedInvocation]
    simp [Scope.setContext, Scope.setTag, mergeRight, lookupA]
  · intro ε ρ nodeEnv options handler event
    rw [sentryWrapOnDocumentChange, sentryInvocationV2Wrapper, scopedScopes_wrappedInvocation]
    simp [Scope.setContext, Scope.setTag, mergeRight, lookupA]

/-- Choosing nothing on the right is the identity. -/
theorem oOr_none_right {α : Type} (a : Option α) : oOr a none = a := by
  cases a <;> rfl

/-- Lookup in a cons cell. -/
theorem lookupA_cons {α : Type} (k0 : String) (v : α) (tl : List (String × α)) (k : String) :
    lookupA ((k0, v) :: tl) k = if k0 = k then some v else lookupA tl k := by
  by_cases h : k0 = k
  · subst h
    simp [lookupA, List.find?]
  · have hb : (k0 == k) = false := beq_eq_false_iff_ne.mpr h
    simp [lookupA, List.find?, h, hb]

/-- Lookup distributes over append as a left-biased choice. -/
theorem lookupA_append {α : Type} (l1 l2 : List (String × α)) (k : String) :
    lookupA (l1 ++ l2) k = oOr (lookupA l1 k) (lookupA l2 k) := by
  induction l1 with
  | nil => simp [lookupA, oOr]
  | cons kv tl ih =>
      obtain ⟨k0, v⟩ := kv
      rw [List.cons_append, lookupA_cons, lookupA_cons]
      by_cases h : k0 = k <;> simp [h, ih, oOr]

/-- Filtering out the keys of an update does not change lookups of keys
the update does not hold. -/
theorem lookupA_filter_not_in_upd {α : Type} (base upd : List (String × α)) (k : String)
    (hnone : lookupA upd k = none) :
    lookupA (base.filter (fun kv => (upd.find? (fun uv => uv.1 == kv.1)).isNone)) k =
      lookupA base k := by
  induction base with
  | nil => rfl
  | cons kv tl ih =>
      obtain ⟨k0, v⟩ := kv
      rw [List.filter_cons]
      by_cases hk : k0 = k
      · subst hk
        have : (upd.find? (fun uv => uv.1 == k0)).isNone = true := by
          simp only [lookupA] at hnone
          cases h : upd.find? (fun uv => uv.1 == k0) with
          | none => rfl
          | some kv2 => rw [h] at hnone; simp at hnone
        rw [if_pos this, lookupA_cons, lookupA_cons, if_pos rfl, if_pos rfl]
      · by_cases hin : (upd.find? (fun uv => uv.1 == k0)).isNone = true
        · rw [if_pos hin, lookupA_cons, lookupA_cons, if_neg hk, if_neg hk, ih]
        · rw [if_neg hin, lookupA_cons, if_neg hk, ih]

/-- Lookup through an object-spread merge: the update wins. -/
theorem lookupA_mergeRight {α : Type} (base upd : List (String × α)) (k : String) :
    lookupA (mergeRight base upd) k = oOr (lookupA upd k) (lookupA base k) := by
  rw [mergeRight, lookupA_append]
  cases h : lookupA upd k with
  | some v => simp [oOr]
  | none => simp [oOr, lookupA_filter_not_in_upd base upd k h]

/-- Folding a right-biased choice from an arbitrary accumulator equals
folding from nothing and then choosing the accumulator last. -/
theorem foldl_oOr_init {α β : Type} (g : β → Option α) (l : List β) (a : Option α) :
    l.foldl (fun acc c => oOr (g c) acc) a =
      oOr (l.foldl (fun acc c => oOr (g c) acc) none) a := by
  induction l generalizing a with
  | nil => cases a <;> rfl
  | cons c tl ih =>
      rw [List.foldl_cons, List.foldl_cons, ih (oOr (g c) a), ih (oOr (g c) none)]
      cases tl.foldl (fun acc c => oOr (g c) acc) none <;> cases g c <;> cases a <;> rfl

/-- The last tag write over a cons layer list. -/
theorem lastTagWrite_cons (c : SentryCaptureContext) (tl : List SentryCaptureContext)
    (k : String) :
    lastTagWrite (c :: tl) k = oOr (lastTagWrite tl k) (ctxTagAt c k) := by
  unfold lastTagWrite
  rw [List.foldl_cons, foldl_oOr_init]
  cases ctxTagAt c k <;> rfl

/-- The last extra write over a cons layer list. -/
theorem lastExtraWrite_cons (c : SentryCaptureContext) (tl : List SentryCaptureContext)
    (k : String) :
    lastExtraWrite (c :: tl) k = oOr (lastExtraWrite tl k) (ctxExtraAt c k) := by
  unfold lastExtraWrite
  rw [List.foldl_cons, foldl_oOr_init]
  cases ctxExtraAt c k <;> rfl

/-- The last tag write over appended layer lists: the later list wins. -/
theorem lastTagWrite_append (l1 l2 : List SentryCaptureContext) (k : String) :
    lastTagWrite (l1 ++ l2) k = oOr (lastTagWrite l2 k) (lastTagWrite l1 k) := by
  unfold lastTagWrite
  rw [List.foldl_append, foldl_oOr_init]

/-- The last extra write over appended layer lists: the later list
wins. -/
theorem lastExtraWrite_append (l1 l2 : List SentryCaptureContext) (k : String) :
    lastExtraWrite (l1 ++ l2) k = oOr (lastExtraWrite l2 k) (lastExtraWrite l1 k) := by
  unfold lastExtraWrite
  rw [List.foldl_append, foldl_oOr_init]

/-- The walk applies each layer with beforeSend in chain order. -/
theorem process_eq_foldl (event : SentryEventModel) (exc : SentryExceptionValue) :
    processErrorWithSentryCaptureContext event exc =
      (walkLayers exc).foldl (fun ev ctx => beforeSend ctx ev) event := by
  induction exc generalizing event with
  | other => rfl
  | ecc ctx cause ih =>
      rw [processErrorWithSentryCaptureContext, walkLayers, List.foldl_cons, ih]

/-- Tag lookup through one beforeSend application. -/
theorem tags_beforeSend (ctx : SentryCaptureContext) (event : SentryEventModel)
    (k : String) :
    lookupA (beforeSend ctx event).tags k = oOr (ctxTagAt ctx k) (lookupA event.tags k) := by
  cases h : ctx.tags with
  | none => simp [beforeSend, ctxTagAt, h, oOr]
  | some ts => simp [beforeSend, ctxTagAt, h, lookupA_mergeRight]

/-- Extra lookup through one beforeSend application. -/
theorem extra_beforeSend (ctx : SentryCaptureContext) (event : SentryEventModel)
    (k : String) :
    lookupA (beforeSend ctx event).extra k =
      oOr (ctxExtraAt ctx k) (lookupA event.extra k) := by
  cases h : ctx.extra with
  | none => simp [beforeSend, ctxExtraAt, h, oOr]
  | some xs => simp [beforeSend, ctxExtraAt, h, lookupA_mergeRight]

/-- Tag lookup after the full walk: the chronologically last layer write
wins, the event value survives only if no layer wrote the key. -/
theorem tags_process (event : SentryEventModel) (exc : SentryExceptionValue) (k : String) :
    lookupA (processErrorWithSentryCaptureContext event exc).tags k =
      oOr (lastTagWrite (walkLayers exc) k) (lookupA event.tags k) := by
  induction exc generalizing event with
  | other => rfl
  | ecc ctx cause ih =>
      rw [processErrorWithSentryCaptureContext, walkLayers, ih, tags_beforeSend,
        lastTagWrite_cons]
      cases lastTagWrite (walkLayers cause) k <;> cases ctxTagAt ctx k <;> rfl

/-- Extra lookup after the full walk. -/
theorem extra_process (event : SentryEventModel) (exc : SentryExceptionValue) (k : String) :
    lookupA (processErrorWithSentryCaptureContext event exc).extra k =
      oOr (lastExtraWrite (walkLayers exc) k) (lookupA event.extra k) := by
  induction exc generalizing event with
  | other => rfl
  | ecc ctx cause ih =>
      rw [processErrorWithSentryCaptureContext, walkLayers, ih, extra_beforeSend,
        lastExtraWrite_cons]
      cases lastExtraWrite (walkLayers cause) k <;> cases ctxExtraAt ctx k <;> rfl

/-- A choice is present iff one side is. -/
theorem oOr_isSome {α : Type} (a b : Option α) : (oOr a b).isSome = (a.isSome || b.isSome) := by
  cases a <;> rfl

/-- A key has a last tag write iff some layer writes it. -/
theorem lastTagWrite_isSome (layers : List SentryCaptureContext) (k : String) :
    (lastTagWrite layers k).isSome = true ↔
      ∃ ctx ∈ layers, (ctxTagAt ctx k).isSome = true := by
  induction layers with
  | nil => simp [lastTagWrite]
  | cons c tl ih =>
      rw [lastTagWrite_cons, oOr_isSome]
      simp [ih, or_comm]

/-- C1: for every report over a context-carrying cause chain, the walk
applies each layer from the outermost error toward the innermost cause:
afterwards a tag key is present iff the event or some layer holds it, and
on a collision the write of the innermost (root) layer is the value
present, both for tags and for extra data. -/
theorem captureContextChainMerge :
    (∀ (event : SentryEventModel) (exc : SentryExceptionValue) (k : String),
      lookupA (processErrorWithSentryCaptureContext event exc).tags k =
        oOr (lastTagWrite (walkLayers exc) k) (lookupA event.tags k)) ∧
    (∀ (event : SentryEventModel) (exc : SentryExceptionValue) (k : String),
      lookupA (processErrorWithSentryCaptureContext event exc).extra k =
        oOr (lastExtraWrite (walkLayers exc) k) (lookupA event.extra k)) ∧
    (∀ (event : SentryEventModel) (exc : SentryExceptionValue) (k : String),
      (lookupA (processErrorWithSentryCaptureContext event exc).tags k).isSome = true ↔
        ((∃ ctx ∈ walkLayers exc, (ctxTagAt ctx k).isSome = true) ∨
          (lookupA event.tags k).isSome = true)) ∧
    (∀ (event : SentryEventModel) (exc : SentryExceptionValue) (k : String)
       (outer : List SentryCaptureContext) (root : SentryCaptureContext),
      walkLayers exc = outer ++ [root] → (ctxTagAt root k).isSome = true →
      lookupA (processErrorWithSentryCaptureContext event exc).tags k = ctxTagAt root k) ∧
    (∀ (event : SentryEventModel) (exc : SentryExceptionValue) (k : String)
       (outer : List SentryCaptureContext) (root : SentryCaptureContext),
      walkLayers exc = outer ++ [root] → (ctxExtraAt root k).isSome = true →
      lookupA (processErrorWithSentryCaptureContext event exc).extra k =
        ctxExtraAt root k) := by
  refine ⟨tags_process, extra_process, ?_, ?_, ?_⟩
  · intro event exc k
    rw [tags_process, oOr_isSome]
    simp only [Bool.or_eq_true]
    rw [lastTagWrite_isSome]
  · intro event exc k outer root hwalk hroot
    obtain ⟨v, hv⟩ := Option.isSome_iff_exists.mp hroot
    rw [tags_process, hwalk, lastTagWrite_append, lastTagWrite_cons]
    simp [lastTagWrite, hv, oOr]
  · intro event exc k outer root hwalk hroot
    obtain ⟨v, hv⟩ := Option.isSome_iff_exists.mp hroot
    rw [extra_process, hwalk, lastExtraWrite_append, lastExtraWrite_cons]
    simp [lastExtraWrite, hv, oOr]

/-- Witness for C1 at the three-level chain of the spec: the resulting
tags hold all three layers, and the colliding extra key holds the root
value. -/
theorem captureContextChainMergeWitness :
    lookupA (processErrorWithSentryCaptureContext {}
        (.ecc { tags := some [("top", "true")], extra := some [("level", "top")] }
          (.ecc { tags := some [("middle", "true")], extra := some [("level", "middle")] }
            (.ecc { tags := some [("root", "true")], extra := some [("level", "root")] }
              .other)))).extra "level" = some "root" ∧
    lookupA (processErrorWithSentryCaptureContext {}
        (.ecc { tags := some [("top", "true")], extra := some [("level", "top")] }
          (.ecc { tags := some [("middle", "true")], extra := some [("level", "middle")] }
            (.ecc { tags := some [("root", "true")], extra := some [("level", "root")] }
              .other)))).tags "top" = some "true" ∧
    lookupA (processErrorWithSentryCaptureContext {}
        (.ecc { tags := some [("top", "true")], extra := some [("level", "top")] }
          (.ecc { tags := some [("middle", "true")], extra := some [("level", "middle")] }
            (.ecc { tags := some [("root", "true")], extra := some [("level", "root")] }
              .other)))).tags "middle" = some "true" ∧
    lookupA (processErrorWithSentryCaptureContext {}
        (.ecc { tags := some [("top", "true")], extra := some [("level", "top")] }
          (.ecc { tags := some [("middle", "true")], extra := some [("level", "middle")] }
            (.ecc { tags := some [("root", "true")], extra := some [("level", "root")] }
              .other)))).tags "root" = some "true" := by
  refine ⟨?_, ?_, ?_, ?_⟩
  · rw [captureContextChainMerge.2.2.2.2 {}
      (.ecc { tags := some [("top", "true")], extra := some [("level", "top")] }
        (.ecc { tags := some [("middle", "true")], extra := some [("level", "middle")] }
          (.ecc { tags := some [("root", "true")], extra := some [("level", "root")] }
            .other)))
      "level"
      [{ tags := some [("top", "true")], extra := some [("level", "top")] },
       { tags := some [("middle", "true")], extra := some [("level", "middle")] }]
      { tags := some [("root", "true")], extra := some [("level", "root")] } rfl rfl]
    rfl
  · rw [captureContextChainMerge.1]
    rfl
  · rw [captureContextChainMerge.1]
    rfl
  · rw [captureContextChainMerge.1]
    rfl

/-- C2 counterexample: over a two-level chain whose layers both write the
same tag key, the report holds the inner value, so the later-in-the-chain
write did overwrite the earlier one; first writer does not win. -/
theorem innerLayerOverwritesOuterTag :
    lookupA (processErrorWithSentryCaptureContext {}
      (.ecc { tags := some [("k", "outer")] }
        (.ecc { tags := some [("k", "inner")] } .other))).tags "k" = some "inner" ∧
    (some "inner" : Option String) ≠ some "outer" :=
  ⟨rfl, by decide⟩

/-- C2 as amended: the cause chain is walked exactly once, each layer
applied once in chain order, and on a key collision in tags or extra data
a later-in-the-chain (inner) write overwrites an earlier (outer) write:
the last writer wins per field. -/
theorem chainWalkedOnceLastWriterWins :
    (∀ (event : SentryEventModel) (exc : SentryExceptionValue),
      processErrorWithSentryCaptureContext event exc =
        (walkLayers exc).foldl (fun ev ctx => beforeSend ctx ev) event) ∧
    (∀ (event : SentryEventModel) (c1 c2 : SentryCaptureContext) (k : String),
      (ctxTagAt c2 k).isSome = true →
      lookupA (processErrorWithSentryCaptureContext event
        (.ecc c1 (.ecc c2 .other))).tags k = ctxTagAt c2 k) ∧
    (∀ (event : SentryEventModel) (c1 c2 : SentryCaptureContext) (k : String),
      (ctxExtraAt c2 k).isSome = true →
      lookupA (processErrorWithSentryCaptureContext event
        (.ecc c1 (.ecc c2 .other))).extra k = ctxExtraAt c2 k) := by
  refine ⟨process_eq_foldl, ?_, ?_⟩
  · intro event c1 c2 k h
    obtain ⟨v, hv⟩ := Option.isSome_iff_exists.mp h
    rw [tags_process]
    simp [walkLayers, lastTagWrite_cons, lastTagWrite, hv, oOr]
  · intro event c1 c2 k h
    obtain ⟨v, hv⟩ := Option.isSome_iff_exists.mp h
    rw [extra_process]
    simp [walkLayers, lastExtraWrite_cons, lastExtraWrite, hv, oOr]

/-- Witness for C2 at a concrete two-level chain. -/
theorem chainWalkedOnceLastWriterWinsWitness :
    lookupA (processErrorWithSentryCaptureContext {}
      (.ecc { extra := some [("who", "first")] }
        (.ecc { extra := some [("who", "second")] } .other))).extra "who" = some "second" := by
  rw [chainWalkedOnceLastWriterWins.2.2 {}
    { extra := some [("who", "first")] } { extra := some [("who", "second")] } "who" rfl]
  rfl

end FirebaseFunctions
